import Mathlib

/-!
Verification of the IFEM-GPM spline-model preprocessor.

This file gives a shallow embedding of the topological-entity and
global-numbering code of the repository (Line.cpp, SplineModel.h,
TopologySet.h, main_getPROP.cpp) and proves the spec's claims about it.
Control-point distances are modelled as exact rationals; the geometry
kernel's point type (Go::Point) is kept abstract, with its distance
function passed in as a parameter, exactly as the C++ code delegates
distance computation to the external kernel.
-/

namespace GPM

/-! ## Line.cpp: getLineEnumeration -/

/-- Embedding of Line::getLineEnumeration (src/src/Line.cpp, lines 63-77):
sort the two corner indices, then classify by their difference
(1: u-line, 2: v-line, 4: w-line, otherwise the sentinel -1).
C++ integer division truncates toward zero, hence Int.tdiv. -/
def getLineEnumeration (vert1 vert2 : Int) : Int :=
  let v1 := if vert2 < vert1 then vert2 else vert1
  let v2 := if vert2 < vert1 then vert1 else vert2
  if v2 - v1 = 1 then Int.tdiv v1 2
  else if v2 - v1 = 2 then Int.tdiv (v2 + v1) 4 + 4
  else if v2 - v1 = 4 then v1 + 8
  else -1

/-! ## Line.cpp: Line::equals -/

/-- The fail-fast comparison loop of Line::equals: advance through both
control-point sequences while neither is exhausted, returning false at
the first pair whose distance exceeds the tolerance. The loop performs
no length check: it stops as soon as either sequence runs out.
Distances and the tolerance live in an arbitrary linearly ordered type β,
standing in for the C++ double: the code only ever compares a distance
against the tolerance. -/
def cpLoop {α β : Type} [LinearOrder β] (dist : α → α → β) :
    List α → List α → β → Bool
  | x :: xs, y :: ys, tol => if dist x y > tol then false else cpLoop dist xs ys tol
  | _, _, _ => true

/-- Embedding of Line::equals (src/src/Line.cpp, lines 26-43).
`cp` is this line's control points, `lcp` the argument line's.
If the argument's first point is within tol of this line's front,
run the forward loop; otherwise, if it is within tol of this line's
back, run the loop against the reversed sequence; otherwise false.
The C++ dereferences the argument's begin() unconditionally, so the
empty cases (unreachable for real lines, which hold at least their two
endpoints) are mapped to false. -/
def lineEquals {α β : Type} [LinearOrder β] (dist : α → α → β)
    (cp lcp : List α) (tol : β) : Bool :=
  match lcp, cp with
  | [], _ => false
  | _, [] => false
  | first :: _, c :: cs =>
    if dist first c < tol then
      cpLoop dist (c :: cs) lcp tol
    else if dist first ((c :: cs).getLast (List.cons_ne_nil c cs)) < tol then
      cpLoop dist (c :: cs).reverse lcp tol
    else
      false

/-- A concrete distance function (absolute difference on ℤ), standing in
for the external geometry kernel's point distance in concrete examples. -/
def intDist (a b : ℤ) : ℤ := if a ≤ b then b - a else a - b

/-- intDist is zero on the diagonal, as any distance function must be. -/
theorem intDist_self (a : ℤ) : intDist a a = 0 := by simp [intDist]

/-! ## SplineModel::enforceRightHandSystem (spec-modelled) -/

/-- Modelled from the spec: a patch as seen by SplineModel::enforceRightHandSystem.
The implementation file SplineModel.cpp is not under src/ (only the declaration
in src/include/SplineModel.h line 70 is), so the patch is modelled from spec
section 4.3: what matters is the patch's control-point stream and the sign of
its parametric Jacobian at the interior sample point. -/
structure Patch where
  cps : List ℚ
  jacNegative : Bool
deriving DecidableEq

/-- Modelled from the spec: the kernel's direction-reversal mutation primitive
(control-point order flip, knot-vector reflection); reversing one parametric
direction negates the Jacobian sign. -/
def reverseParamDir (p : Patch) : Patch :=
  { cps := p.cps.reverse, jacNegative := !p.jacNegative }

/-- Modelled from the spec: SplineModel::enforceRightHandSystem (SplineModel.cpp
not under src/). Per spec section 4.3: query each patch's Jacobian sign; any
patch with negative sign has one parametric direction reversed; return whether
any patch changed, together with the updated patch list. -/
def enforceRightHandSystem (m : List Patch) : Bool × List Patch :=
  (m.any (fun p => p.jacNegative),
   m.map (fun p => if p.jacNegative then reverseParamDir p else p))

/-! ## SplineModel::generateGlobalNumbers, phase 1 (spec-modelled) -/

/-- Modelled from the spec: the index-assignment pass of
SplineModel::generateGlobalNumbers (SplineModel.cpp not under src/).
Given a start index and the sizes of the successive index blocks, assign each
block a contiguous range: the list of (start, count) pairs, in order. -/
def assignRanges (start : ℕ) : List ℕ → List (ℕ × ℕ)
  | [] => []
  | c :: cs => (start, c) :: assignRanges (start + c) cs

/-- Modelled from the spec: the fixed block order of the assignment pass of
SplineModel::generateGlobalNumbers — all canonical Vertices (one index each),
then the interior-point counts of the non-degenerate canonical Lines, then of
the non-degenerate canonical Faces, then of the Volumes. -/
def globalBlocks (nVert : ℕ) (lineInts faceInts volInts : List ℕ) : List ℕ :=
  List.replicate nVert 1 ++ lineInts ++ faceInts ++ volInts

/-- Modelled from the spec: SplineModel::generateGlobalNumbers /
generateGlobalNumbersPETSc index assignment (SplineModel.cpp not under src/):
assign contiguous ranges to the blocks in their fixed order, starting from the
offset (0 for the plain variant, iStart for the PETSc variant). -/
def generateGlobalNumbers (offset nVert : ℕ) (lineInts faceInts volInts : List ℕ) :
    List (ℕ × ℕ) :=
  assignRanges offset (globalBlocks nVert lineInts faceInts volInts)

/-- The set of global indices covered by one assigned (start, count) range. -/
def rangeSet (r : ℕ × ℕ) : Finset ℕ := Finset.Ico r.1 (r.1 + r.2)

/-- The set of all global indices covered by a list of assigned ranges. -/
def indexSet (rs : List (ℕ × ℕ)) : Finset ℕ :=
  rs.foldr (fun r acc => rangeSet r ∪ acc) ∅

/-! ## SplineModel::generateGlobalNumbers, phase 2 (spec-modelled) -/

/-- Modelled from the spec: a canonical (deduplicated) Line after phase 1 of
SplineModel::generateGlobalNumbers (SplineModel.cpp not under src/): the global
index of its first interior point along its stored control-point order, and
its interior-point count (total points minus the 2 endpoints). -/
structure CanonLine where
  start : ℤ
  nInt : ℕ

/-- Modelled from the spec: the per-patch edge record (start, increment) of
the volGlobNumber / surfGlobNumber structures (src/include/SplineModel.h,
lines 37-45): if the patch's local traversal agrees with the canonical line's
stored order, the increment is +1 from the canonical start; if reversed, the
increment is -1 and the start is the canonical line's far end. -/
def edgeRecord (L : CanonLine) (agrees : Bool) : ℤ × ℤ :=
  if agrees then (L.start, 1) else (L.start + (L.nInt : ℤ) - 1, -1)

/-- Evaluation of a stored (start, increment) edge record at a local interior
position i: global = start + increment * i. -/
def evalEdge (r : ℤ × ℤ) (i : ℕ) : ℤ := r.1 + r.2 * (i : ℤ)

/-- The canonical interior position of a patch-local interior position i on a
shared line: identity when the traversals agree, reversal otherwise. Two
patch-local positions are geometrically coincident exactly when they map to
the same canonical position. -/
def canonPosOfLocal (L : CanonLine) (agrees : Bool) (i : ℕ) : ℕ :=
  if agrees then i else L.nInt - 1 - i

/-- Modelled from the spec: a canonical Face after phase 1: the global index
of interior grid position (0,0) in its stored order, and its interior grid
dimensions nu x nv. The canonical global index of interior grid position
(a, b) is start + a + nu * b. -/
structure CanonFace where
  start : ℤ
  nu : ℕ
  nv : ℕ

/-- The canonical global index of interior grid position (a, b) of a face. -/
def faceIndex (F : CanonFace) (a b : ℕ) : ℤ :=
  F.start + (a : ℤ) + (F.nu : ℤ) * (b : ℤ)

/-- A patch's local parametrization of a shared face differs from the
canonical one by one of the 8 grid symmetries: reversal of either axis and/or
an axis swap. -/
structure FaceOrient where
  flipU : Bool
  flipV : Bool
  swapUV : Bool

/-- The local grid dimensions of a patch on a shared face: the canonical
nu x nv, with the axes exchanged when the orientation swaps them. -/
def localDims (F : CanonFace) (o : FaceOrient) : ℕ × ℕ :=
  if o.swapUV then (F.nv, F.nu) else (F.nu, F.nv)

/-- The canonical interior grid position corresponding to a patch-local
position (i, j) under an orientation: undo the axis swap, then undo the axis
reversals. Two patch-local positions on a shared face are geometrically
coincident exactly when they map to the same canonical position. -/
def canonPosOfLocal2 (F : CanonFace) (o : FaceOrient) (i j : ℕ) : ℕ × ℕ :=
  let p := if o.swapUV then j else i
  let q := if o.swapUV then i else j
  (if o.flipU then F.nu - 1 - p else p, if o.flipV then F.nv - 1 - q else q)

/-- Modelled from the spec: the per-patch face record
(start, increment_i, increment_j) of the volGlobNumber structure
(src/include/SplineModel.h, lines 41-43): the global start index is the
canonical index of the patch's local origin, and each signed increment is the
canonical index step caused by one step of the corresponding local axis
(+-1 along the canonical u-axis, +-nu along the canonical v-axis). -/
def faceRecord (F : CanonFace) (o : FaceOrient) : ℤ × ℤ × ℤ :=
  (F.start + (if o.flipU then (F.nu : ℤ) - 1 else 0)
           + (F.nu : ℤ) * (if o.flipV then (F.nv : ℤ) - 1 else 0),
   if o.swapUV then (if o.flipV then -(F.nu : ℤ) else (F.nu : ℤ))
               else (if o.flipU then -1 else 1),
   if o.swapUV then (if o.flipU then -1 else 1)
               else (if o.flipV then -(F.nu : ℤ) else (F.nu : ℤ)))

/-- Evaluation of a stored face record at a local interior position (i, j):
global = start + increment_i * i + increment_j * j. -/
def evalFace (r : ℤ × ℤ × ℤ) (i j : ℕ) : ℤ :=
  r.1 + r.2.1 * (i : ℤ) + r.2.2 * (j : ℤ)

/-- Modelled from the spec: the per-patch vertex record of the
volGlobNumber / surfGlobNumber structures (src/include/SplineModel.h, lines
25 and 38): a patch's stored global number for a corner slot is the index
assigned to the canonical Vertex that slot references. -/
def vertexRecord (canonIdx : ℤ) : ℤ := canonIdx

/-! ## main_getPROP.cpp: processParameters and main -/

/-- The state accumulated by processParameters
(src/unnamed/part_000, lines 37-69): the -v flag, the -in flag with its
filename, and whether at least one input file was read. -/
structure PPState where
  verbose : Bool
  inFile : Bool
  inFileName : String
  fileRead : Bool
deriving DecidableEq

/-- The ways processParameters terminates the process. -/
inductive ExitKind where
  | helpUsage
  | missingInArg
  | badFile (name : String)
  | noInput
deriving DecidableEq

/-- The exit status passed to exit() for each terminating branch of
processParameters: 0 for -help, 1 for the three failure branches. -/
def exitCode : ExitKind → ℕ
  | .helpUsage => 0
  | .missingInArg => 1
  | .badFile _ => 1
  | .noInput => 1

/-- Whether the terminating branch prints the usage text (the -help branch
and the no-input-file branch do). -/
def printsUsage : ExitKind → Bool
  | .helpUsage => true
  | .noInput => true
  | _ => false

/-- Whether the terminating branch prints an error diagnostic to cerr
(the missing -in filename and the unreadable-file branches do). -/
def printsDiagnostic : ExitKind → Bool
  | .missingInArg => true
  | .badFile _ => true
  | _ => false

/-- The argument loop of processParameters (src/unnamed/part_000, lines
39-64). The file system is modelled as a predicate saying which file names
open successfully. "-v" sets verbose; "-help" exits 0 with the usage text;
"-in" as the last argument exits 1 with a diagnostic, otherwise consumes the
next argument as the property-input filename; any other argument is opened as
a spline input file — on failure exit 1 with a diagnostic, on success the
splines are read and fileRead is set. -/
def ppLoop (fs : String → Bool) : List String → PPState → Except ExitKind PPState
  | [], st => .ok st
  | arg :: rest, st =>
    if arg = "-v" then ppLoop fs rest { st with verbose := true }
    else if arg = "-help" then .error .helpUsage
    else if arg = "-in" then
      match rest with
      | [] => .error .missingInArg
      | f :: tail => ppLoop fs tail { st with inFileName := f, inFile := true }
    else
      if fs arg then ppLoop fs rest { st with fileRead := true }
      else .error (.badFile arg)

/-- The initial global state of main_getPROP.cpp (lines 23-25). -/
def initState : PPState :=
  { verbose := false, inFile := false, inFileName := "", fileRead := false }

/-- processParameters (src/unnamed/part_000, lines 37-69): run the argument
loop from the initial state; if it completes without having read any input
file, print the usage text and exit 1. -/
def processParameters (fs : String → Bool) (args : List String) :
    Except ExitKind PPState :=
  match ppLoop fs args initState with
  | .error e => .error e
  | .ok st => if st.fileRead then .ok st else .error .noInput

/-- The externally visible effects of main's orientation-enforcement step
(src/unnamed/part_000, lines 104-111): files written and warnings printed. -/
structure MainEffects where
  filesWritten : List String
  warnings : List String
deriving DecidableEq

/-- The orientation-enforcement step of main (src/unnamed/part_000, lines
104-111), as a function of the value returned by enforceRightHandSystem():
when it returns true, a warning is printed and the rewritten splines are
written to the fixed file name "reparameterized.g2"; when it returns false,
nothing is printed or written. -/
def mainOrientationStep (rhsChanged : Bool) : MainEffects :=
  if rhsChanged then
    { filesWritten := ["reparameterized.g2"],
      warnings := ["WARNING: system reparameterized to strict right-hand-system."] }
  else
    { filesWritten := [], warnings := [] }

/-- The fail-fast loop accepts exactly when every zipped pair is within
tolerance; pairs beyond the shorter sequence's length are never examined. -/
theorem cpLoop_eq_all {α β : Type} [LinearOrder β] (dist : α → α → β)
    (xs ys : List α) (tol : β) :
    cpLoop dist xs ys tol = (xs.zip ys).all (fun p => decide (dist p.1 p.2 ≤ tol)) := by
  induction xs generalizing ys with
  | nil => cases ys <;> simp [cpLoop]
  | cons x xs ih =>
    cases ys with
    | nil => simp [cpLoop]
    | cons y ys =>
      simp only [cpLoop, List.zip_cons_cons, List.all_cons]
      by_cases h : dist x y > tol
      · simp [h, not_le.mpr h]
      · simp [h, not_lt.mp h, ih]

/-- C2: for every pair of corner indices (a, b) in 0..7,
getLineEnumeration(a, b) = getLineEnumeration(b, a), and the result is the
sentinel -1 exactly when the absolute index difference |a - b| is not one of
1, 2 or 4. -/
theorem getLineEnumeration_symm_and_sentinel :
    ∀ a b : Fin 8,
      getLineEnumeration (a : ℤ) (b : ℤ) = getLineEnumeration (b : ℤ) (a : ℤ) ∧
      (getLineEnumeration (a : ℤ) (b : ℤ) = -1 ↔
        ¬(((a : ℤ) - (b : ℤ)).natAbs = 1 ∨ ((a : ℤ) - (b : ℤ)).natAbs = 2 ∨
          ((a : ℤ) - (b : ℤ)).natAbs = 4)) := by
  decide

/-- C3: getLineEnumeration classifies the ordered corner pair
(v1 = min, v2 = max) by the difference v2 - v1: difference 1 yields the
u-edge slot v1/2 in 0..3, difference 2 yields the v-edge slot
(v1 + v2)/4 + 4 in 4..7, difference 4 yields the w-edge slot v1 + 8 in
8..11, and every non-sentinel result lies in 0..11. -/
theorem getLineEnumeration_classification :
    ∀ a b : Fin 8,
      (max (a : ℤ) (b : ℤ) - min (a : ℤ) (b : ℤ) = 1 →
        getLineEnumeration (a : ℤ) (b : ℤ) = Int.tdiv (min (a : ℤ) (b : ℤ)) 2 ∧
        0 ≤ getLineEnumeration (a : ℤ) (b : ℤ) ∧
        getLineEnumeration (a : ℤ) (b : ℤ) ≤ 3) ∧
      (max (a : ℤ) (b : ℤ) - min (a : ℤ) (b : ℤ) = 2 →
        getLineEnumeration (a : ℤ) (b : ℤ) =
          Int.tdiv (min (a : ℤ) (b : ℤ) + max (a : ℤ) (b : ℤ)) 4 + 4 ∧
        4 ≤ getLineEnumeration (a : ℤ) (b : ℤ) ∧
        getLineEnumeration (a : ℤ) (b : ℤ) ≤ 7) ∧
      (max (a : ℤ) (b : ℤ) - min (a : ℤ) (b : ℤ) = 4 →
        getLineEnumeration (a : ℤ) (b : ℤ) = min (a : ℤ) (b : ℤ) + 8 ∧
        8 ≤ getLineEnumeration (a : ℤ) (b : ℤ) ∧
        getLineEnumeration (a : ℤ) (b : ℤ) ≤ 11) ∧
      (getLineEnumeration (a : ℤ) (b : ℤ) ≠ -1 →
        0 ≤ getLineEnumeration (a : ℤ) (b : ℤ) ∧
        getLineEnumeration (a : ℤ) (b : ℤ) ≤ 11) := by
  decide

/-- Witness for C3: the corner pair (2, 3) has difference 1 and lands on
u-edge slot 1; the pair (1, 3) has difference 2 and lands on v-edge slot 5;
the pair (3, 7) has difference 4 and lands on w-edge slot 11. -/
theorem getLineEnumeration_classification_witness :
    getLineEnumeration 2 3 = 1 ∧ getLineEnumeration 1 3 = 5 ∧
    getLineEnumeration 3 7 = 11 :=
  ⟨((getLineEnumeration_classification 2 3).1 (by decide)).1,
   ((getLineEnumeration_classification 1 3).2.1 (by decide)).1,
   ((getLineEnumeration_classification 3 7).2.2.1 (by decide)).1⟩

/-- Branch characterization of Line::equals: the result is the forward
all-pairs check when the argument's first point is within tol of this
line's front, else the reversed all-pairs check when it is within tol of
this line's back, else false. -/
theorem lineEquals_eq_branches {α β : Type} [LinearOrder β] (dist : α → α → β)
    (cp lcp : List α) (tol : β) (hcp : cp ≠ []) (hl : lcp ≠ []) :
    lineEquals dist cp lcp tol =
      if dist (lcp.head hl) (cp.head hcp) < tol then
        (cp.zip lcp).all fun p => decide (dist p.1 p.2 ≤ tol)
      else if dist (lcp.head hl) (cp.getLast hcp) < tol then
        (cp.reverse.zip lcp).all fun p => decide (dist p.1 p.2 ≤ tol)
      else false := by
  cases cp with
  | nil => exact absurd rfl hcp
  | cons c cs =>
    cases lcp with
    | nil => exact absurd rfl hl
    | cons f fs => simp [lineEquals, cpLoop_eq_all]

/-- Zipping a list with itself pairs every element with itself. -/
theorem zip_self_eq_map {α : Type} (L : List α) : L.zip L = L.map fun x => (x, x) := by
  induction L with
  | nil => rfl
  | cons x xs ih => simp [ih]

/-- The head of a reversed nonempty list is its last element. -/
theorem head_reverse_eq_getLast {α : Type} (L : List α) (h : L ≠ [])
    (h2 : L.reverse ≠ []) : L.reverse.head h2 = L.getLast h := by
  have h1 := List.head?_reverse L
  rw [List.head?_eq_head h2, List.getLast?_eq_getLast L h] at h1
  exact Option.some.inj h1

/-- C4 counterexample: Line::equals performs no length check. Here this
line has 2 control points and the argument line has 3, yet equals returns
true: the forward loop exhausts the shorter sequence and stops, never
examining the argument's third point (100). The claim that a length
mismatch forces a false result is therefore violated by the code. -/
theorem lineEquals_length_mismatch_counterexample :
    ([(0 : ℤ), 1].length ≠ [(0 : ℤ), 1, 100].length) ∧
    lineEquals intDist [(0 : ℤ), 1] [(0 : ℤ), 1, 100] 1 = true := by
  constructor
  · decide
  · decide

/-- C4 (amended): Line::equals compares the control-point sequences
pairwise, trying both traversal orientations (selected by matching the
argument's first point against this line's front or back), and returns
false as soon as a compared pair exceeds the tolerance; however it performs
no length check: the comparison covers only the zipped common prefix of the
two sequences, so a length mismatch alone never forces a false result. -/
theorem lineEquals_pairwise_truncated {α β : Type} [LinearOrder β]
    (dist : α → α → β) (cp lcp : List α) (tol : β) (hcp : cp ≠ []) (hl : lcp ≠ []) :
    lineEquals dist cp lcp tol = true ↔
      ((dist (lcp.head hl) (cp.head hcp) < tol ∧
          ∀ p ∈ cp.zip lcp, dist p.1 p.2 ≤ tol) ∨
       (¬ dist (lcp.head hl) (cp.head hcp) < tol ∧
          dist (lcp.head hl) (cp.getLast hcp) < tol ∧
          ∀ p ∈ cp.reverse.zip lcp, dist p.1 p.2 ≤ tol)) := by
  rw [lineEquals_eq_branches dist cp lcp tol hcp hl]
  by_cases h1 : dist (lcp.head hl) (cp.head hcp) < tol
  · simp [h1, List.all_eq_true]
  · by_cases h2 : dist (lcp.head hl) (cp.getLast hcp) < tol
    · simp [h1, h2, List.all_eq_true]
    · simp [h1, h2]

/-- Witness for C4 (amended): a 2-point line compared against a 3-point
line whose common prefix matches exactly; equals returns true despite the
length mismatch. -/
theorem lineEquals_pairwise_truncated_witness :
    lineEquals intDist [(0 : ℤ), 1] [(0 : ℤ), 1, 100] 1 = true :=
  (lineEquals_pairwise_truncated intDist [(0 : ℤ), 1] [(0 : ℤ), 1, 100]
      1 (by simp) (by simp)).mpr
    (Or.inl ⟨by decide, by decide⟩)

/-- C5 counterexample: Line::equals is not orientation-insensitive for a
line whose two endpoints lie within the tolerance of each other. The line
[0, 10, 20, 0] is within-tolerance equal to itself, but comparing it with
its reversed copy [0, 20, 10, 0] returns false: the reversed copy's first
point (0) matches this line's front, so only the forward pairing is
examined, and the pair (10, 20) exceeds the tolerance. The claim that every
line matches its reversed copy is therefore violated by the code. -/
theorem lineEquals_reverse_counterexample :
    (0 : ℤ) < 1 ∧
    lineEquals intDist [(0 : ℤ), 10, 20, 0] [(0 : ℤ), 10, 20, 0] 1 = true ∧
    lineEquals intDist [(0 : ℤ), 10, 20, 0]
      ([(0 : ℤ), 10, 20, 0].reverse) 1 = false := by
  refine ⟨by decide, by decide, by decide⟩

/-- C5 (amended): Line::equals is reflexive for every positive tolerance,
and it matches the reversed copy of a line whose endpoints are NOT within
the tolerance of each other (for a line whose endpoints are within
tolerance, the forward pairing is chosen against the reversed copy and may
fail); and whenever a compared control-point pair of the executed
orientation exceeds the tolerance, the result is false. -/
theorem lineEquals_refl_reverse_within {α β : Type} [LinearOrder β]
    (dist : α → α → β) (zero : β) (hdist : ∀ p : α, dist p p = zero)
    (L : List α) (tol : β) (htol : zero < tol) (hne : L ≠ []) :
    lineEquals dist L L tol = true ∧
    (¬ dist (L.getLast hne) (L.head hne) < tol →
      lineEquals dist L L.reverse tol = true) ∧
    (∀ (lcp : List α) (hl : lcp ≠ []), dist (lcp.head hl) (L.head hne) < tol →
      (∃ p ∈ L.zip lcp, tol < dist p.1 p.2) →
      lineEquals dist L lcp tol = false) ∧
    (∀ (lcp : List α) (hl : lcp ≠ []), ¬ dist (lcp.head hl) (L.head hne) < tol →
      dist (lcp.head hl) (L.getLast hne) < tol →
      (∃ p ∈ L.reverse.zip lcp, tol < dist p.1 p.2) →
      lineEquals dist L lcp tol = false) := by
  have hself : ∀ (M : List α),
      ((M.zip M).all fun p => decide (dist p.1 p.2 ≤ tol)) = true := by
    intro M
    rw [zip_self_eq_map]
    simp only [List.all_eq_true, List.mem_map]
    rintro x ⟨y, _, rfl⟩
    simp [hdist y, le_of_lt htol]
  refine ⟨?_, ?_, ?_, ?_⟩
  · rw [lineEquals_eq_branches dist L L tol hne hne, if_pos (by simp [hdist, htol])]
    exact hself L
  · intro hfar
    have hrev : L.reverse ≠ [] := by simp [hne]
    rw [lineEquals_eq_branches dist L L.reverse tol hne hrev,
        head_reverse_eq_getLast L hne hrev, if_neg hfar,
        if_pos (by simp [hdist, htol])]
    exact hself L.reverse
  · intro lcp hl hnear ⟨p, hp, hpbad⟩
    rw [lineEquals_eq_branches dist L lcp tol hne hl, if_pos hnear]
    simp only [List.all_eq_false]
    exact ⟨p, hp, by simp [not_le.mpr hpbad]⟩
  · intro lcp hl hfar hback ⟨p, hp, hpbad⟩
    rw [lineEquals_eq_branches dist L lcp tol hne hl, if_neg hfar, if_pos hback]
    simp only [List.all_eq_false]
    exact ⟨p, hp, by simp [not_le.mpr hpbad]⟩

/-- Witness for C5 (amended): the line [0, 5] is within-tolerance equal to
itself, matches its reversed copy [5, 0] (its endpoints are 5 apart, beyond
the tolerance 1), and fails against [0, 99] whose second point is far. -/
theorem lineEquals_refl_reverse_within_witness :
    lineEquals intDist [(0 : ℤ), 5] [(0 : ℤ), 5] 1 = true ∧
    lineEquals intDist [(0 : ℤ), 5] [(5 : ℤ), 0] 1 = true ∧
    lineEquals intDist [(0 : ℤ), 5] [(0 : ℤ), 99] 1 = false := by
  have h := lineEquals_refl_reverse_within intDist 0
    intDist_self [(0 : ℤ), 5] 1 (by decide) (by simp)
  exact ⟨h.1, h.2.1 (by decide), h.2.2.1 [(0 : ℤ), 99] (by simp) (by decide)
    ⟨((5 : ℤ), (99 : ℤ)), by decide, by decide⟩⟩

/-- C10: Line::equals commits to one traversal direction from the argument
line's first control point alone. If that point is within tolerance of this
line's front, the result is exactly the forward all-pairs comparison — the
reversed pairing is never attempted, even when the forward comparison
fails; the reversed pairing is used exactly when the argument's first point
misses this line's front but is within tolerance of its back; and when it
matches neither endpoint the result is false. -/
theorem lineEquals_orientation_commit {α β : Type} [LinearOrder β]
    (dist : α → α → β) (cp lcp : List α) (tol : β)
    (hcp : cp ≠ []) (hl : lcp ≠ []) :
    (dist (lcp.head hl) (cp.head hcp) < tol →
      lineEquals dist cp lcp tol =
        ((cp.zip lcp).all fun p => decide (dist p.1 p.2 ≤ tol))) ∧
    (¬ dist (lcp.head hl) (cp.head hcp) < tol →
      dist (lcp.head hl) (cp.getLast hcp) < tol →
      lineEquals dist cp lcp tol =
        ((cp.reverse.zip lcp).all fun p => decide (dist p.1 p.2 ≤ tol))) ∧
    (¬ dist (lcp.head hl) (cp.head hcp) < tol →
      ¬ dist (lcp.head hl) (cp.getLast hcp) < tol →
      lineEquals dist cp lcp tol = false) := by
  refine ⟨fun h1 => ?_, fun h1 h2 => ?_, fun h1 h2 => ?_⟩
  · rw [lineEquals_eq_branches dist cp lcp tol hcp hl, if_pos h1]
  · rw [lineEquals_eq_branches dist cp lcp tol hcp hl, if_neg h1, if_pos h2]
  · rw [lineEquals_eq_branches dist cp lcp tol hcp hl, if_neg h1, if_neg h2]

/-- Witness for C10: the argument [0, 7, 3, 0] has its first point within
tolerance of the front of [0, 3, 7, 0], so only the forward pairing is
examined; it fails at the pair (3, 7) and equals returns false, even though
the reversed pairing would have matched every pair exactly. -/
theorem lineEquals_orientation_commit_witness :
    lineEquals intDist [(0 : ℤ), 3, 7, 0] [(0 : ℤ), 7, 3, 0] 1 = false ∧
    (([(0 : ℤ), 3, 7, 0].reverse.zip [(0 : ℤ), 7, 3, 0]).all
      fun p => decide (intDist p.1 p.2 ≤ 1)) = true := by
  have h := (lineEquals_orientation_commit intDist [(0 : ℤ), 3, 7, 0]
    [(0 : ℤ), 7, 3, 0] 1 (by simp) (by simp)).1 (by decide)
  exact ⟨by rw [h]; decide, by decide⟩

/-- After one pass of enforceRightHandSystem, every patch has a
non-negative Jacobian sign. -/
theorem enforceRightHandSystem_all_positive (m : List Patch) :
    ∀ q ∈ (enforceRightHandSystem m).2, q.jacNegative = false := by
  intro q hq
  simp only [enforceRightHandSystem, List.mem_map] at hq
  obtain ⟨p, _, rfl⟩ := hq
  by_cases h : p.jacNegative <;> simp [h, reverseParamDir]

/-- A model whose patches all have non-negative Jacobian sign is left
unchanged by enforceRightHandSystem, which reports no change. -/
theorem enforceRightHandSystem_fixed (m : List Patch)
    (hm : ∀ q ∈ m, q.jacNegative = false) :
    enforceRightHandSystem m = (false, m) := by
  simp only [enforceRightHandSystem, Prod.mk.injEq]
  constructor
  · simp only [List.any_eq_false]
    intro q hq
    simp [hm q hq]
  · induction m with
    | nil => rfl
    | cons q qs ih =>
      simp only [List.map_cons, hm q (List.mem_cons_self q qs), if_false]
      exact congrArg _ (ih fun p hp => hm p (List.mem_cons_of_mem q hp))

/-- C6: enforceRightHandSystem is idempotent — after one call has fixed the
model, a second consecutive call changes no patch and returns false; in
particular a model with one left-handed patch yields true on the first call
and false on the second. -/
theorem enforceRightHandSystem_idempotent (m : List Patch) :
    (enforceRightHandSystem (enforceRightHandSystem m).2).1 = false ∧
    (enforceRightHandSystem (enforceRightHandSystem m).2).2 =
      (enforceRightHandSystem m).2 ∧
    (∀ p : Patch, p.jacNegative = true →
      (enforceRightHandSystem [p]).1 = true ∧
      (enforceRightHandSystem (enforceRightHandSystem [p]).2).1 = false) := by
  have h := enforceRightHandSystem_fixed (enforceRightHandSystem m).2
    (enforceRightHandSystem_all_positive m)
  refine ⟨by rw [h], by rw [h], fun p hp => ⟨by simp [enforceRightHandSystem, hp], ?_⟩⟩
  have h1 := enforceRightHandSystem_fixed (enforceRightHandSystem [p]).2
    (enforceRightHandSystem_all_positive [p])
  rw [h1]

/-- Witness for C6: a single left-handed patch (negative Jacobian sign) is
reported changed by the first call and unchanged by the second. -/
theorem enforceRightHandSystem_idempotent_witness :
    (enforceRightHandSystem [⟨[], true⟩]).1 = true ∧
    (enforceRightHandSystem (enforceRightHandSystem [⟨[], true⟩]).2).1 = false :=
  (enforceRightHandSystem_idempotent [⟨[], true⟩]).2.2 ⟨[], true⟩ rfl

/-- C9: the main program writes the rewritten spline patches to the fixed
file name "reparameterized.g2" and emits a warning exactly when
enforceRightHandSystem() reports that it modified the model; when it
reports no change, no file is written and no warning is printed. -/
theorem main_writes_reparameterized_iff (rhsChanged : Bool) :
    ("reparameterized.g2" ∈ (mainOrientationStep rhsChanged).filesWritten ↔
      rhsChanged = true) ∧
    ((mainOrientationStep rhsChanged).warnings ≠ [] ↔ rhsChanged = true) ∧
    (rhsChanged = false → (mainOrientationStep rhsChanged).filesWritten = []) := by
  cases rhsChanged <;> simp [mainOrientationStep]

/-- Witness for C9: with a modified model the file list is exactly
["reparameterized.g2"]; with an unmodified model it is empty. -/
theorem main_writes_reparameterized_iff_witness :
    "reparameterized.g2" ∈ (mainOrientationStep true).filesWritten ∧
    (mainOrientationStep false).filesWritten = [] :=
  ⟨(main_writes_reparameterized_iff true).1.mpr rfl,
   (main_writes_reparameterized_iff false).2.2 rfl⟩

/-- One step of the argument loop, as a single unconditional equation. -/
theorem ppLoop_cons (fs : String → Bool) (a : String) (rest : List String)
    (st : PPState) :
    ppLoop fs (a :: rest) st =
      if a = "-v" then ppLoop fs rest { st with verbose := true }
      else if a = "-help" then .error .helpUsage
      else if a = "-in" then
        match rest with
        | [] => .error .missingInArg
        | f :: tail => ppLoop fs tail { st with inFileName := f, inFile := true }
      else if fs a then ppLoop fs rest { st with fileRead := true }
      else .error (.badFile a) := by
  cases rest <;> rfl

/-- When the argument loop completes normally on a prefix of the argument
list, processing the whole list continues from the state the prefix
produced. -/
theorem ppLoop_append_ok (fs : String → Bool) :
    ∀ (l r : List String) (st st' : PPState),
      ppLoop fs l st = .ok st' → ppLoop fs (l ++ r) st = ppLoop fs r st'
  | [], r, st, st', h => by
    simp only [ppLoop] at h
    cases h
    rfl
  | a :: l, r, st, st', h => by
    rw [List.cons_append]
    rw [ppLoop_cons] at h ⊢
    by_cases hv : a = "-v"
    · rw [if_pos hv] at h ⊢
      exact ppLoop_append_ok fs l r _ st' h
    · by_cases hh : a = "-help"
      · rw [if_neg hv, if_pos hh] at h
        exact absurd h (by simp)
      · by_cases hi : a = "-in"
        · rw [if_neg hv, if_neg hh, if_pos hi] at h ⊢
          match l with
          | [] => exact absurd h (by simp)
          | f :: tail =>
            rw [List.cons_append]
            exact ppLoop_append_ok fs tail r _ st' h
        · by_cases hf : fs a
          · rw [if_neg hv, if_neg hh, if_neg hi, if_pos hf] at h ⊢
            exact ppLoop_append_ok fs l r _ st' h
          · rw [if_neg hv, if_neg hh, if_neg hi, if_neg hf] at h
            exact absurd h (by simp)

/-- C8: the command-line program exits with status 1 and a diagnostic when
an input file fails to open, or when -in is the final argument (no filename
follows it); and when no input file argument was supplied at all it prints
the usage text and exits with status 1. The prefix hypothesis says the
arguments before the failing one were processed without terminating. -/
theorem processParameters_failure_exits (fs : String → Bool)
    (pre suf : List String) (st : PPState) (a : String) :
    (processParameters fs [] = .error .noInput ∧
      exitCode .noInput = 1 ∧ printsUsage .noInput = true) ∧
    (ppLoop fs pre initState = .ok st → st.fileRead = false →
      processParameters fs pre = .error .noInput ∧
      exitCode .noInput = 1 ∧ printsUsage .noInput = true) ∧
    (ppLoop fs pre initState = .ok st →
      processParameters fs (pre ++ ["-in"]) = .error .missingInArg ∧
      exitCode .missingInArg = 1 ∧ printsDiagnostic .missingInArg = true) ∧
    (ppLoop fs pre initState = .ok st →
      a ≠ "-v" → a ≠ "-help" → a ≠ "-in" → fs a = false →
      processParameters fs (pre ++ a :: suf) = .error (.badFile a) ∧
      exitCode (.badFile a) = 1 ∧ printsDiagnostic (.badFile a) = true) := by
  refine ⟨⟨rfl, rfl, rfl⟩, fun h hr => ⟨?_, rfl, rfl⟩, fun h => ⟨?_, rfl, rfl⟩,
    fun h hv hh hi hf => ⟨?_, rfl, rfl⟩⟩
  · simp [processParameters, h, hr]
  · have hstep := ppLoop_append_ok fs pre ["-in"] initState st h
    unfold processParameters
    rw [hstep]
    rfl
  · have hstep := ppLoop_append_ok fs pre (a :: suf) initState st h
    unfold processParameters
    rw [hstep, ppLoop_cons, if_neg hv, if_neg hh, if_neg hi,
        if_neg (by simp [hf])]

/-- Witness for C8: with a file system where nothing opens, an empty
argument list exits 1 with the usage text; ["-v", "-in"] exits 1 with the
missing-filename diagnostic; ["-v", "model.g2"] exits 1 with the
unreadable-file diagnostic. -/
theorem processParameters_failure_exits_witness :
    processParameters (fun _ => false) [] = .error .noInput ∧
    processParameters (fun _ => false) ["-v", "-in"] = .error .missingInArg ∧
    processParameters (fun _ => false) ["-v", "model.g2"] =
      .error (.badFile "model.g2") := by
  have h := processParameters_failure_exits (fun _ => false) ["-v"] []
    { verbose := true, inFile := false, inFileName := "", fileRead := false }
    "model.g2"
  exact ⟨h.1.1, (h.2.2.1 rfl).1,
    (h.2.2.2 rfl (by decide) (by decide) (by decide) rfl).1⟩

/-- Contiguous ranges assigned to successive blocks cover exactly the
interval from the start to the start plus the total block size. -/
theorem indexSet_assignRanges (cs : List ℕ) :
    ∀ start : ℕ, indexSet (assignRanges start cs) =
      Finset.Ico start (start + cs.sum) := by
  induction cs with
  | nil => intro start; simp [assignRanges, indexSet]
  | cons c cs ih =>
    intro start
    have hstep : indexSet (assignRanges start (c :: cs)) =
        rangeSet (start, c) ∪ indexSet (assignRanges (start + c) cs) := rfl
    rw [hstep, ih (start + c), rangeSet]
    rw [Finset.Ico_union_Ico_eq_Ico (Nat.le_add_right start c)
      (Nat.le_add_right (start + c) cs.sum)]
    rw [List.sum_cons, Nat.add_assoc]

/-- C7: the set of global indices assigned by generateGlobalNumbers is the
contiguous interval starting at the offset whose length is the number of
canonical vertices plus the summed interior-point counts of the
non-degenerate lines, the non-degenerate faces, and the volumes, in that
fixed block order; its cardinality equals that total. -/
theorem generateGlobalNumbers_contiguous (offset nVert : ℕ)
    (lineInts faceInts volInts : List ℕ) :
    indexSet (generateGlobalNumbers offset nVert lineInts faceInts volInts) =
      Finset.Ico offset
        (offset + (nVert + lineInts.sum + faceInts.sum + volInts.sum)) ∧
    (indexSet (generateGlobalNumbers offset nVert lineInts faceInts volInts)).card =
      nVert + lineInts.sum + faceInts.sum + volInts.sum := by
  have hsum : (globalBlocks nVert lineInts faceInts volInts).sum =
      nVert + lineInts.sum + faceInts.sum + volInts.sum := by
    simp [globalBlocks, List.sum_append, List.sum_replicate, Nat.add_assoc]
  have h := indexSet_assignRanges (globalBlocks nVert lineInts faceInts volInts) offset
  rw [hsum] at h
  have h1 : indexSet (generateGlobalNumbers offset nVert lineInts faceInts volInts) =
      Finset.Ico offset
        (offset + (nVert + lineInts.sum + faceInts.sum + volInts.sum)) := h
  refine ⟨h1, ?_⟩
  rw [h1, Nat.card_Ico]
  omega

/-- Casting a reversed interior position into ℤ. -/
theorem cast_flip_sub (n p : ℕ) (h : p < n) :
    ((n - 1 - p : ℕ) : ℤ) = (n : ℤ) - 1 - (p : ℤ) := by omega

/-- Evaluating a patch's stored edge record at a local interior position
gives the canonical start plus the canonical position of that point. -/
theorem evalEdge_edgeRecord (L : CanonLine) (o : Bool) (i : ℕ)
    (hi : i < L.nInt) :
    evalEdge (edgeRecord L o) i = L.start + (canonPosOfLocal L o i : ℤ) := by
  cases o with
  | true => simp [evalEdge, edgeRecord, canonPosOfLocal]
  | false =>
    rw [show edgeRecord L false = (L.start + (L.nInt : ℤ) - 1, -1) from rfl,
        show canonPosOfLocal L false i = L.nInt - 1 - i from rfl]
    simp only [evalEdge]
    rw [cast_flip_sub L.nInt i hi]
    ring

/-- Evaluating a patch's stored face record at a local interior grid
position gives the canonical index of the canonical position of that
point. -/
theorem evalFace_faceRecord (F : CanonFace) (o : FaceOrient) (i j : ℕ)
    (hi : i < (localDims F o).1) (hj : j < (localDims F o).2) :
    evalFace (faceRecord F o) i j =
      faceIndex F (canonPosOfLocal2 F o i j).1 (canonPosOfLocal2 F o i j).2 := by
  obtain ⟨fU, fV, sw⟩ := o
  cases fU <;> cases fV <;> cases sw <;>
    simp only [evalFace, faceRecord, canonPosOfLocal2, faceIndex, localDims,
      if_true, if_false, Bool.false_eq_true, Bool.true_eq_false, ite_true,
      ite_false] at hi hj ⊢
  all_goals try rw [cast_flip_sub F.nv j hj]
  all_goals try rw [cast_flip_sub F.nv i hi]
  all_goals try rw [cast_flip_sub F.nu i hi]
  all_goals try rw [cast_flip_sub F.nu j hj]
  all_goals ring

/-- C1: after generateGlobalNumbers, two patches sharing a canonical
Vertex, Line, or Face produce the identical global index when each
evaluates its own stored affine record at geometrically coincident local
positions (positions mapping to the same canonical position of the shared
entity), for every position on the shared entity. -/
theorem globalNumbers_shared_entity_consistent :
    (∀ v : ℤ, vertexRecord v = v) ∧
    (∀ (L : CanonLine) (oA oB : Bool) (i j : ℕ), i < L.nInt → j < L.nInt →
      canonPosOfLocal L oA i = canonPosOfLocal L oB j →
      evalEdge (edgeRecord L oA) i = evalEdge (edgeRecord L oB) j) ∧
    (∀ (F : CanonFace) (oA oB : FaceOrient) (iA jA iB jB : ℕ),
      iA < (localDims F oA).1 → jA < (localDims F oA).2 →
      iB < (localDims F oB).1 → jB < (localDims F oB).2 →
      canonPosOfLocal2 F oA iA jA = canonPosOfLocal2 F oB iB jB →
      evalFace (faceRecord F oA) iA jA = evalFace (faceRecord F oB) iB jB) := by
  refine ⟨fun v => rfl, fun L oA oB i j hi hj hco => ?_, ?_⟩
  · rw [evalEdge_edgeRecord L oA i hi, evalEdge_edgeRecord L oB j hj, hco]
  · intro F oA oB iA jA iB jB hiA hjA hiB hjB hco
    rw [evalFace_faceRecord F oA iA jA hiA hjA,
        evalFace_faceRecord F oB iB jB hiB hjB, hco]

/-- Witness for C1: a shared line with 3 interior points starting at global
index 10, traversed forwards by one patch and backwards by the other —
local position 0 of the first patch coincides with local position 2 of the
second and both formulas give 10; and a shared face with a 2 x 3 interior
grid starting at 20, one patch aligned with the canonical order and the
other flipped in u and axis-swapped — local (1,2) of the first coincides
with local (2,0) of the second and both formulas give 25. -/
theorem globalNumbers_shared_entity_consistent_witness :
    evalEdge (edgeRecord ⟨10, 3⟩ true) 0 = evalEdge (edgeRecord ⟨10, 3⟩ false) 2 ∧
    evalFace (faceRecord ⟨20, 2, 3⟩ ⟨false, false, false⟩) 1 2 =
      evalFace (faceRecord ⟨20, 2, 3⟩ ⟨true, false, true⟩) 2 0 :=
  ⟨globalNumbers_shared_entity_consistent.2.1 ⟨10, 3⟩ true false 0 2
      (by decide) (by decide) (by decide),
   globalNumbers_shared_entity_consistent.2.2 ⟨20, 2, 3⟩
      ⟨false, false, false⟩ ⟨true, false, true⟩ 1 2 2 0
      (by decide) (by decide) (by decide) (by decide) (by decide)⟩

end GPM
